import Mathlib

/-
Verification of the mcl::AudioBuffer container (src/audioBuffer.hpp) against
its natural-language specification.

Modelling conventions (shallow embedding):
- float samples are modelled as rationals (Rat); every claim checked here is
  about which samples are read, written or compared, not about rounding.
- C++ int is modelled as Int.
- m_data (a unique_ptr to a flat float array) is modelled as
  Option (List Rat): none is the null pointer, some d a (possibly
  zero-length) allocation.
- an assert(...) that fails, and an out-of-bounds raw-memory access
  (undefined behaviour in C++), both make the modelled operation return
  none; operations that cannot fail stay total.
-/

namespace mcl

/-- The AudioBuffer state: flat sample storage (none = null pointer),
frame count m_size, channel count m_channels, and the viewing flag. -/
structure AudioBuffer where
  m_data : Option (List Rat)
  m_size : Int
  m_channels : Int
  m_viewing : Bool
  deriving DecidableEq, Repr

namespace AudioBuffer

/-- countFrames: returns m_size. -/
def countFrames (buf : AudioBuffer) : Int := buf.m_size

/-- countSamples: returns m_size * m_channels. -/
def countSamples (buf : AudioBuffer) : Int := buf.m_size * buf.m_channels

/-- countChannels: returns m_channels. -/
def countChannels (buf : AudioBuffer) : Int := buf.m_channels

/-- isAllocd: true iff m_data is non-null. -/
def isAllocd (buf : AudioBuffer) : Bool := buf.m_data.isSome

/-- The assertion checks of operator[]: assert(m_data != nullptr) and
assert(offset < m_size). Note the source checks only the upper bound:
a negative offset passes both assertions. -/
def idxAsserts (buf : AudioBuffer) (offset : Int) : Bool :=
  buf.m_data.isSome && decide (offset < buf.m_size)

/-- Raw flat read m_data.get()[i]. A null pointer or an index outside the
allocation is undefined behaviour in the C++ and yields none here. -/
def readMem (buf : AudioBuffer) (i : Int) : Option Rat :=
  match buf.m_data with
  | none => none
  | some d => if 0 ≤ i then d[i.toNat]? else none

/-- Raw flat write m_data.get()[i] = v, with the same undefined-behaviour
conditions as readMem. -/
def writeMem (buf : AudioBuffer) (i : Int) (v : Rat) : Option AudioBuffer :=
  match buf.m_data with
  | none => none
  | some d =>
    if 0 ≤ i ∧ i.toNat < d.length then
      some { buf with m_data := some (d.set i.toNat v) }
    else none

/-- Reading (*this)[f][ch]: operator[] runs its assertions, then the sample
at flat index f * m_channels + ch is read. -/
def readSample (buf : AudioBuffer) (f ch : Int) : Option Rat :=
  if idxAsserts buf f then readMem buf (f * buf.m_channels + ch) else none

/-- Writing (*this)[f][ch] = v through operator[]. -/
def writeSample (buf : AudioBuffer) (f ch : Int) (v : Rat) : Option AudioBuffer :=
  if idxAsserts buf f then writeMem buf (f * buf.m_channels + ch) v else none

/-- The private set helper: (*this)[f][channel] = val. -/
def setAt (buf : AudioBuffer) (f ch : Int) (v : Rat) : Option AudioBuffer :=
  writeSample buf f ch v

/-- The private sum helper: (*this)[f][channel] += val. -/
def sumAt (buf : AudioBuffer) (f ch : Int) (v : Rat) : Option AudioBuffer := do
  let old ← readSample buf f ch
  writeSample buf f ch (old + v)

/-- free(): both the viewing branch (release without deallocating) and the
owning branch (reset) leave m_data null; dimensions are zeroed and the
viewing flag cleared. -/
def free (_ : AudioBuffer) : AudioBuffer :=
  { m_data := none, m_size := 0, m_channels := 0, m_viewing := false }

/-- Helper for std::fill_n with 0.0: zero the cnt positions starting at
start. A position outside the allocation is undefined behaviour in the
C++; List.set drops such writes. -/
def zeroFill : List Rat → Nat → Nat → List Rat
  | d, _, 0 => d
  | d, i, n + 1 => zeroFill (d.set i 0) (i + 1) n

/-- clear(a, b): no-op on a null buffer; b == -1 selects m_size; then
fill_n from a * m_channels for (b - a) * m_channels samples. -/
def clear (buf : AudioBuffer) (a b : Int) : AudioBuffer :=
  match buf.m_data with
  | none => buf
  | some d =>
    let b' := if b = -1 then buf.m_size else b
    { buf with
      m_data := some (zeroFill d (a * buf.m_channels).toNat
        (((b' - a) * buf.m_channels).toNat)) }

/-- alloc(size, channels): free, set the dimensions, allocate
size * channels samples (std::make_unique value-initialises them to zero;
a zero-length request still yields a non-null pointer), then clear(). -/
def alloc (buf : AudioBuffer) (size channels : Int) : AudioBuffer :=
  let freed := buf.free
  let alloced : AudioBuffer :=
    { freed with
      m_size := size
      m_channels := channels
      m_data := some (List.replicate (size * channels).toNat 0) }
  alloced.clear 0 (-1)

/-- copy(o): allocate o.m_size * o.m_channels fresh samples, take the
dimensions and the viewing flag from o, and std::copy that many samples
from o's storage. -/
def copy (o : AudioBuffer) : AudioBuffer :=
  { m_data := some ((o.m_data.getD []).take (o.m_size * o.m_channels).toNat)
    m_size := o.m_size
    m_channels := o.m_channels
    m_viewing := o.m_viewing }

/-- Well-formed buffer states: non-negative dimensions, and the storage
length (when non-null) is exactly m_size * m_channels; a null pointer only
with zero samples. Every state the C++ class can reach satisfies this. -/
def wf (buf : AudioBuffer) : Bool :=
  decide (0 ≤ buf.m_size) && decide (0 ≤ buf.m_channels) &&
    (match buf.m_data with
     | some d => decide (d.length = (buf.m_size * buf.m_channels).toNat)
     | none => decide (buf.m_size * buf.m_channels = 0))

/-- Total view of the flat sample at index i (0 when unreadable); used to
state theorems about reachable, in-range samples. -/
def sampleFlat (buf : AudioBuffer) (i : Int) : Rat :=
  (buf.m_data.getD []).getD i.toNat 0

/-- Total view of the sample at (frame f, channel ch). -/
def sampleAt (buf : AudioBuffer) (f ch : Int) : Rat :=
  sampleFlat buf (f * buf.m_channels + ch)

/-- The two merge modes of the engine (the Operation template parameter). -/
inductive Operation where
  | SUM
  | SET
  deriving DecidableEq, Repr

/-- One merge step: the sum / set helper selected by the operation kind. -/
def mergeStep (op : Operation) (dest : AudioBuffer) (f ch : Int) (v : Rat) :
    Option AudioBuffer :=
  match op with
  | Operation.SUM => sumAt dest f ch v
  | Operation.SET => setAt dest f ch v

/-- The assertions at the head of merge: destination allocated, destOffset
in [0, m_size), srcChannel in the source's channel range, destChannel in
the destination's channel range. srcOffset is not checked. -/
def mergeAsserts (dest b : AudioBuffer) (destOffset srcChannel destChannel : Int) : Bool :=
  dest.m_data.isSome &&
    decide (0 ≤ destOffset) && decide (destOffset < dest.m_size) &&
    decide (0 ≤ srcChannel) && decide (srcChannel < b.countChannels) &&
    decide (0 ≤ destChannel) && decide (destChannel < dest.countChannels)

/-- The frame-copy loop of merge, one fuel unit per iteration the C++ loop
attempts: reads b[srcOffset + destF][srcChannel], scales by gain, and
sums / sets it at (destF + destOffset, destChannel) of the destination. -/
def mergeLoop (op : Operation) (b : AudioBuffer)
    (srcOffset destOffset srcChannel destChannel : Int) (gain : Rat) :
    Nat → Int → AudioBuffer → Option AudioBuffer
  | 0, _, dest => some dest
  | n + 1, destF, dest => do
    let v ← readSample b (srcOffset + destF) srcChannel
    let dest' ← mergeStep op dest (destF + destOffset) destChannel (v * gain)
    mergeLoop op b srcOffset destOffset srcChannel destChannel gain n (destF + 1) dest'

/-- merge: run the assertions, default framesToCopy == -1 to the source's
frame count, clamp it to m_size - destOffset, then loop while
destF < framesToCopy and destF < b.countFrames() (note: the second guard
compares the step count destF, not the source frame index
srcOffset + destF, with the source's frame count). -/
def merge (op : Operation) (dest b : AudioBuffer)
    (framesToCopy srcOffset destOffset srcChannel destChannel : Int) (gain : Rat) :
    Option AudioBuffer :=
  if mergeAsserts dest b destOffset srcChannel destChannel then
    let ftc0 := if framesToCopy = -1 then b.countFrames else framesToCopy
    let ftc := min ftc0 (dest.m_size - destOffset)
    mergeLoop op b srcOffset destOffset srcChannel destChannel gain
      (min ftc b.countFrames).toNat 0 dest
  else none

/-- sum (1): merge in SUM mode. -/
def sum (dest b : AudioBuffer)
    (framesToCopy srcOffset destOffset srcChannel destChannel : Int) (gain : Rat) :
    Option AudioBuffer :=
  merge Operation.SUM dest b framesToCopy srcOffset destOffset srcChannel destChannel gain

/-- set (1): merge in SET mode. -/
def set (dest b : AudioBuffer)
    (framesToCopy srcOffset destOffset srcChannel destChannel : Int) (gain : Rat) :
    Option AudioBuffer :=
  merge Operation.SET dest b framesToCopy srcOffset destOffset srcChannel destChannel gain

/-- The channel loop of mergeAll, one fuel unit per destination channel:
srcCh wraps to 0 on reaching b.countChannels(). The C++ body calls
sum / set without forwarding gain, so their default gain 1.0 is what each
single-channel-pair merge receives. -/
def mergeAllLoop (op : Operation) (b : AudioBuffer)
    (framesToCopy srcOffset destOffset : Int) :
    Nat → Int → Int → AudioBuffer → Option AudioBuffer
  | 0, _, _, dest => some dest
  | n + 1, destCh, srcCh, dest => do
    let srcCh' := if srcCh = b.countChannels then 0 else srcCh
    let dest' ← merge op dest b framesToCopy srcOffset destOffset srcCh' destCh 1
    mergeAllLoop op b framesToCopy srcOffset destOffset n (destCh + 1) (srcCh' + 1) dest'

/-- mergeAll: one single-channel-pair merge per destination channel. The
gain parameter is accepted but never used by the C++ body. -/
def mergeAll (op : Operation) (dest b : AudioBuffer)
    (framesToCopy srcOffset destOffset : Int) (gain : Rat) : Option AudioBuffer :=
  mergeAllLoop op b framesToCopy srcOffset destOffset dest.countChannels.toNat 0 0 dest

/-- sumAll (1): mergeAll in SUM mode. -/
def sumAll (dest b : AudioBuffer) (framesToCopy srcOffset destOffset : Int)
    (gain : Rat) : Option AudioBuffer :=
  mergeAll Operation.SUM dest b framesToCopy srcOffset destOffset gain

/-- setAll (1): mergeAll in SET mode. -/
def setAll (dest b : AudioBuffer) (framesToCopy srcOffset destOffset : Int)
    (gain : Rat) : Option AudioBuffer :=
  mergeAll Operation.SET dest b framesToCopy srcOffset destOffset gain

/-- The assertion checks of getPeak: channel < m_channels, a >= 0, and for
an explicit b both a < b and b <= countFrames(). Note only the channel's
upper bound is checked: a negative channel passes. -/
def getPeakAsserts (buf : AudioBuffer) (channel a b : Int) : Bool :=
  decide (channel < buf.m_channels) && decide (0 ≤ a) &&
    (decide (b = -1) || decide (a < b)) &&
    (decide (b = -1) || decide (b ≤ buf.countFrames))

/-- The loop of getPeak: peak = std::max(peak, (*this)[i][channel]) for i
in [a, b), one fuel unit per iteration. -/
def peakLoop (buf : AudioBuffer) (channel : Int) :
    Nat → Int → Rat → Option Rat
  | 0, _, peak => some peak
  | n + 1, i, peak => do
    let v ← readSample buf i channel
    peakLoop buf channel n (i + 1) (max peak v)

/-- getPeak(channel, a, b): assertions, b == -1 defaults to countFrames(),
then the max-fold starting from 0.0. -/
def getPeak (buf : AudioBuffer) (channel a b : Int) : Option Rat :=
  if getPeakAsserts buf channel a b then
    let b' := if b = -1 then buf.countFrames else b
    peakLoop buf channel (b' - a).toNat a 0
  else none

/-- The loop of applyGain: m_data.get()[i] *= g for i in [a, b), one fuel
unit per iteration; the raw accesses bypass operator[]. -/
def gainLoop (g : Rat) : Nat → Int → AudioBuffer → Option AudioBuffer
  | 0, _, buf => some buf
  | n + 1, i, buf => do
    let v ← readMem buf i
    let buf' ← writeMem buf i (v * g)
    gainLoop g n (i + 1) buf'

/-- applyGain(g, a, b): assert a >= 0 and b < countSamples(); when b is the
sentinel -1 it becomes countSamples() and a < b is additionally asserted;
then the flat range [a, b) is scaled in place. -/
def applyGain (buf : AudioBuffer) (g : Rat) (a b : Int) : Option AudioBuffer :=
  if 0 ≤ a ∧ b < buf.countSamples then
    if b = -1 then
      if a < buf.countSamples then
        gainLoop g (buf.countSamples - a).toNat a buf
      else none
    else gainLoop g (b - a).toNat a buf
  else none

end AudioBuffer

open AudioBuffer

/-- Setting any position of an all-zero list to zero changes nothing. -/
theorem set_replicate_zero (m i : Nat) :
    (List.replicate m (0 : Rat)).set i 0 = List.replicate m 0 := by
  induction m generalizing i with
  | zero => simp
  | succ m ih =>
    cases i with
    | zero => simp [List.replicate_succ, List.set]
    | succ i => simp [List.replicate_succ, List.set, ih]

/-- zeroFill is the identity on an all-zero list. -/
theorem zeroFill_replicate (m : Nat) :
    ∀ (n i : Nat), zeroFill (List.replicate m (0 : Rat)) i n = List.replicate m 0 := by
  intro n
  induction n with
  | zero => intro i; rfl
  | succ n ih =>
    intro i
    show zeroFill ((List.replicate m (0 : Rat)).set i 0) (i + 1) n = _
    rw [set_replicate_zero, ih]

/-- The normal form of alloc: storage is a fresh all-zero list of
size * channels samples, dimensions as requested, viewing flag cleared. -/
theorem alloc_eq (buf : AudioBuffer) (size channels : Int) :
    buf.alloc size channels =
      ⟨some (List.replicate (size * channels).toNat 0), size, channels, false⟩ := by
  show AudioBuffer.clear ⟨some (List.replicate (size * channels).toNat 0), size, channels, false⟩ 0 (-1) = _
  simp [AudioBuffer.clear, zeroFill_replicate]

/-- C7: for every buffer in any state, release() leaves a buffer with zero
frame, channel and sample counts, isAllocated() false and the viewing flag
false, and releasing again changes nothing. -/
theorem free_resets (buf : AudioBuffer) :
    (buf.free).countFrames = 0 ∧ (buf.free).countChannels = 0 ∧
    (buf.free).countSamples = 0 ∧ (buf.free).isAllocd = false ∧
    (buf.free).m_viewing = false ∧ (buf.free).free = buf.free := by
  simp [AudioBuffer.free, countFrames, countChannels, countSamples, isAllocd]

/-- C3, counterexample: allocate(0, 1) leaves a zero-length but non-null
allocation, so isAllocated() reports true and the state differs from the
one release() produces, contrary to the claim. -/
theorem alloc_zero_counterexample :
    ((⟨none, 0, 0, false⟩ : AudioBuffer).alloc 0 1).isAllocd = true ∧
    (⟨none, 0, 0, false⟩ : AudioBuffer).alloc 0 1 ≠
      (⟨none, 0, 0, false⟩ : AudioBuffer).free := by
  decide

/-- C3, amended: allocate with zero frames or channels produces a buffer
with the requested dimensions, zero samples, a cleared viewing flag, and a
zero-length (non-null) allocation — so isAllocated() reports true, unlike
the state release() produces. -/
theorem alloc_zero_spec (buf : AudioBuffer) (size channels : Int)
    (h : size = 0 ∨ channels = 0) :
    (buf.alloc size channels).m_data = some [] ∧
    (buf.alloc size channels).isAllocd = true ∧
    (buf.alloc size channels).countFrames = size ∧
    (buf.alloc size channels).countChannels = channels ∧
    (buf.alloc size channels).countSamples = 0 ∧
    (buf.alloc size channels).m_viewing = false := by
  have hz : size * channels = 0 := by
    rcases h with h | h <;> simp [h]
  rw [alloc_eq]
  simp [countFrames, countChannels, countSamples, isAllocd, hz]

/-- Witness for the amended C3 at allocate(0, 1). -/
theorem alloc_zero_spec_witness :
    ((⟨none, 0, 0, false⟩ : AudioBuffer).alloc 0 1).m_data = some [] ∧
    ((⟨none, 0, 0, false⟩ : AudioBuffer).alloc 0 1).isAllocd = true ∧
    ((⟨none, 0, 0, false⟩ : AudioBuffer).alloc 0 1).countFrames = 0 ∧
    ((⟨none, 0, 0, false⟩ : AudioBuffer).alloc 0 1).countChannels = 1 ∧
    ((⟨none, 0, 0, false⟩ : AudioBuffer).alloc 0 1).countSamples = 0 ∧
    ((⟨none, 0, 0, false⟩ : AudioBuffer).alloc 0 1).m_viewing = false :=
  alloc_zero_spec ⟨none, 0, 0, false⟩ 0 1 (Or.inl rfl)

/-- C1: evaluating merge at a source of 2 frames with srcOffset 1 and
framesToCopy 3 — the loop guard compares the step count, not the source
frame index, with the source frame count, so the second step accesses
source frame 2 and operator[]'s assertion fails (none) instead of the
loop stopping early at the source's end; with srcOffset 0 the same call
succeeds and copies exactly the 2 available frames. -/
theorem merge_source_overrun_bug :
    AudioBuffer.merge Operation.SET ⟨some [0, 0, 0, 0], 4, 1, false⟩
      ⟨some [5, 6], 2, 1, false⟩ 3 1 0 0 0 1 = none ∧
    AudioBuffer.merge Operation.SET ⟨some [0, 0, 0, 0], 4, 1, false⟩
      ⟨some [5, 6], 2, 1, false⟩ 3 0 0 0 0 1 =
      some ⟨some [5, 6, 0, 0], 4, 1, false⟩ := by
  norm_num [merge, mergeAsserts, countChannels, countFrames, mergeLoop, mergeStep,
    setAt, sumAt, readSample, writeSample, idxAsserts, readMem, writeMem]

/-- C2: mergeAll drops the caller-supplied gain — summing a 1-sample
source holding 1.0 into a zeroed destination with gain 2 yields 1.0,
whereas the single-channel-pair merge it claims to iterate, called with
that gain, yields 2.0. -/
theorem mergeAll_drops_gain_bug :
    AudioBuffer.mergeAll Operation.SUM ⟨some [0], 1, 1, false⟩
      ⟨some [1], 1, 1, false⟩ 1 0 0 2 = some ⟨some [1], 1, 1, false⟩ ∧
    AudioBuffer.merge Operation.SUM ⟨some [0], 1, 1, false⟩
      ⟨some [1], 1, 1, false⟩ 1 0 0 0 0 2 = some ⟨some [2], 1, 1, false⟩ := by
  norm_num [mergeAll, mergeAllLoop, merge, mergeAsserts, countChannels, countFrames,
    mergeLoop, mergeStep, setAt, sumAt, readSample, writeSample, idxAsserts,
    readMem, writeMem]

/-- C4, counterexample: a negative frame offset passes the frame accessor's
assertions, and a negative channel passes getPeak's assertions — the code
checks only the upper bounds, so these out-of-range indices are not
rejected. -/
theorem negative_index_not_rejected :
    idxAsserts ⟨some [0, 0], 2, 1, false⟩ (-1) = true ∧
    getPeakAsserts ⟨some [0, 0], 2, 1, false⟩ (-1) 0 (-1) = true := by
  decide

/-- C4, amended: the assertions do fail fast for too-large indices — any
frame at or above frameCount fails the frame accessor's check, and any
channel at or above channelCount fails getPeak's check; negative frame or
channel indices, however, pass the assertions unchecked. -/
theorem upper_bound_asserts (buf : AudioBuffer) (f c a b : Int)
    (hf : buf.m_size ≤ f) (hc : buf.m_channels ≤ c) :
    idxAsserts buf f = false ∧ getPeakAsserts buf c a b = false := by
  have h1 : ¬(f < buf.m_size) := by omega
  have h2 : ¬(c < buf.m_channels) := by omega
  constructor
  · simp [idxAsserts, h1]
  · simp [getPeakAsserts, h2]

/-- Witness for the amended C4: frame 2 of a 2-frame buffer and channel 1
of a 1-channel buffer are rejected. -/
theorem upper_bound_asserts_witness :
    idxAsserts ⟨some [0, 0], 2, 1, false⟩ 2 = false ∧
    getPeakAsserts ⟨some [0, 0], 2, 1, false⟩ 1 0 (-1) = false :=
  upper_bound_asserts ⟨some [0, 0], 2, 1, false⟩ 2 1 0 (-1) (by decide) (by decide)

/-- C6: allocate(frames, channels) with positive dimensions yields exactly
those frame / channel / sample counts and every in-range sample reads
back as zero. -/
theorem alloc_invariant (buf : AudioBuffer) (frames channels : Int)
    (hf : 1 ≤ frames) (hc : 1 ≤ channels) :
    (buf.alloc frames channels).countFrames = frames ∧
    (buf.alloc frames channels).countChannels = channels ∧
    (buf.alloc frames channels).countSamples = frames * channels ∧
    ∀ f ch : Int, 0 ≤ f → f < frames → 0 ≤ ch → ch < channels →
      (buf.alloc frames channels).readSample f ch = some 0 := by
  rw [alloc_eq]
  refine ⟨rfl, rfl, rfl, ?_⟩
  intro f ch hf0 hff hch0 hchc
  have hidx0 : 0 ≤ f * channels + ch := by positivity
  have hidx : f * channels + ch < frames * channels := by
    nlinarith [mul_le_mul_of_nonneg_right (by linarith : f + 1 ≤ frames)
      (by linarith : (0 : Int) ≤ channels)]
  have hprod : (0 : Int) < frames * channels := by positivity
  have hlt : (f * channels + ch).toNat < (frames * channels).toNat :=
    (Int.toNat_lt_toNat hprod).mpr hidx
  simp [readSample, idxAsserts, readMem, hff, hidx0, List.getElem?_replicate, hlt]

/-- Witness for C6 at allocate(2, 3), sample (1, 2). -/
theorem alloc_invariant_witness :
    ((⟨none, 0, 0, false⟩ : AudioBuffer).alloc 2 3).countFrames = 2 ∧
    ((⟨none, 0, 0, false⟩ : AudioBuffer).alloc 2 3).countChannels = 3 ∧
    ((⟨none, 0, 0, false⟩ : AudioBuffer).alloc 2 3).countSamples = 6 ∧
    ((⟨none, 0, 0, false⟩ : AudioBuffer).alloc 2 3).readSample 1 2 = some 0 := by
  have h := alloc_invariant ⟨none, 0, 0, false⟩ 2 3 (by decide) (by decide)
  exact ⟨h.1, h.2.1, h.2.2.1, h.2.2.2 1 2 (by decide) (by decide) (by decide) (by decide)⟩

/-- Unpacking a well-formed buffer: non-negative dimensions and exact
storage length. -/
theorem wf_fields (buf : AudioBuffer) (hw : buf.wf = true) :
    0 ≤ buf.m_size ∧ 0 ≤ buf.m_channels ∧
    ∀ d, buf.m_data = some d → d.length = buf.countSamples.toNat := by
  obtain ⟨data, size, channels, viewing⟩ := buf
  cases data with
  | none =>
    simp [wf] at hw
    simp [countSamples]
    omega
  | some d =>
    simp [wf] at hw
    simp [countSamples]
    omega

/-- C5: a copy has the source's dimensions, owns a (non-null) storage of
exactly the source's sample count, reads back the same sample at every
in-range coordinate, and keeps the source's viewing flag value. -/
theorem copy_deep (o : AudioBuffer) (hw : o.wf = true) :
    (o.copy).countFrames = o.countFrames ∧
    (o.copy).countChannels = o.countChannels ∧
    (o.copy).m_viewing = o.m_viewing ∧
    (o.copy).isAllocd = true ∧
    (∃ d, (o.copy).m_data = some d ∧ d.length = (o.m_size * o.m_channels).toNat) ∧
    ∀ f ch : Int, 0 ≤ f → f < o.m_size → 0 ≤ ch → ch < o.m_channels →
      (o.copy).readSample f ch = o.readSample f ch := by
  obtain ⟨hs, hc, hlen⟩ := wf_fields o hw
  cases hd : o.m_data with
  | none =>
    have hz : o.m_size = 0 ∨ o.m_channels = 0 := by
      unfold wf at hw
      rw [hd] at hw
      simp at hw
      tauto
    refine ⟨rfl, rfl, rfl, rfl, ⟨[], ?_, ?_⟩, ?_⟩
    · simp [copy, hd]
    · rcases hz with h | h <;> simp [h]
    · intro f ch hf0 hff hch0 hchc
      exfalso
      rcases hz with h | h <;> omega
  | some d =>
    have hdlen : d.length = (o.m_size * o.m_channels).toNat := by
      have := hlen d hd
      simpa [countSamples] using this
    have ht : d.take (o.m_size * o.m_channels).toNat = d := by
      rw [← hdlen]
      exact List.take_length d
    refine ⟨rfl, rfl, rfl, rfl, ⟨d, ?_, hdlen⟩, ?_⟩
    · simp [copy, hd, ht]
    · intro f ch _ _ _ _
      simp [readSample, idxAsserts, readMem, copy, hd, ht]

/-- Witness for C5 on a 2-frame 1-channel view: the copy keeps the viewing
flag true and reads back the source's samples. -/
theorem copy_deep_witness :
    ((⟨some [1, 2], 2, 1, true⟩ : AudioBuffer).copy).m_viewing = true ∧
    ((⟨some [1, 2], 2, 1, true⟩ : AudioBuffer).copy).isAllocd = true ∧
    ((⟨some [1, 2], 2, 1, true⟩ : AudioBuffer).copy).readSample 1 0 =
      (⟨some [1, 2], 2, 1, true⟩ : AudioBuffer).readSample 1 0 := by
  have h := copy_deep ⟨some [1, 2], 2, 1, true⟩ (by decide)
  exact ⟨h.2.2.1, h.2.2.2.1, h.2.2.2.2.2 1 0 (by decide) (by decide) (by decide) (by decide)⟩

/-- An in-range read through operator[] on a well-formed allocated buffer
succeeds and returns the sample at that coordinate. -/
theorem readSample_eq_sampleAt (buf : AudioBuffer) (f ch : Int)
    (hw : buf.wf = true) (ha : buf.isAllocd = true)
    (hf0 : 0 ≤ f) (hf : f < buf.m_size) (hch0 : 0 ≤ ch) (hch : ch < buf.m_channels) :
    buf.readSample f ch = some (buf.sampleAt f ch) := by
  obtain ⟨hs, hc, hlen⟩ := wf_fields buf hw
  obtain ⟨d, hd⟩ := Option.isSome_iff_exists.mp ha
  have hdlen := hlen d hd
  have hidx0 : 0 ≤ f * buf.m_channels + ch := by positivity
  have hidx : f * buf.m_channels + ch < buf.countSamples := by
    show f * buf.m_channels + ch < buf.m_size * buf.m_channels
    nlinarith [mul_le_mul_of_nonneg_right (by omega : f + 1 ≤ buf.m_size) hc]
  have hlt : (f * buf.m_channels + ch).toNat < d.length := by
    rw [hdlen]
    exact (Int.toNat_lt_toNat (by omega)).mpr hidx
  simp [readSample, idxAsserts, readMem, hd, hf, hidx0, sampleAt, sampleFlat,
    List.getElem?_eq_getElem hlt, List.getD_eq_getElem?_getD]

/-- Invariant of getPeak's loop: it returns the max of the accumulator and
the samples of the remaining range, and that value is either the
accumulator or one of those samples. -/
theorem peakLoop_spec (buf : AudioBuffer) (c : Int)
    (hw : buf.wf = true) (ha : buf.isAllocd = true)
    (hc0 : 0 ≤ c) (hc : c < buf.m_channels) :
    ∀ (n : Nat) (i : Int) (acc : Rat), 0 ≤ i → i + n ≤ buf.m_size →
      ∃ p, peakLoop buf c n i acc = some p ∧ acc ≤ p ∧
        (∀ j, i ≤ j → j < i + n → buf.sampleAt j c ≤ p) ∧
        (p = acc ∨ ∃ j, i ≤ j ∧ j < i + n ∧ buf.sampleAt j c = p) := by
  intro n
  induction n with
  | zero =>
    intro i acc hi0 hin
    refine ⟨acc, rfl, le_refl acc, ?_, Or.inl rfl⟩
    intro j hj1 hj2
    exfalso
    omega
  | succ n ih =>
    intro i acc hi0 hin
    have hr := readSample_eq_sampleAt buf i c hw ha hi0 (by omega) hc0 hc
    obtain ⟨p, hp, hacc, hall, hlast⟩ :=
      ih (i + 1) (max acc (buf.sampleAt i c)) (by omega) (by omega)
    refine ⟨p, ?_, ?_, ?_, ?_⟩
    · simp [peakLoop, hr, hp]
    · exact le_trans (le_max_left _ _) hacc
    · intro j hj1 hj2
      rcases eq_or_lt_of_le hj1 with hji | hji

      · rw [← hji]
        exact le_trans (le_max_right _ _) hacc
      · exact hall j (by omega) (by omega)
    · rcases hlast with heq | ⟨j, hj1, hj2, hj3⟩
      · rcases max_choice acc (buf.sampleAt i c) with hm | hm
        · exact Or.inl (heq.trans hm)
        · exact Or.inr ⟨i, le_refl i, by omega, by rw [← hm, ← heq]⟩
      · exact Or.inr ⟨j, by omega, by omega, hj3⟩

/-- C8: on a valid channel and frame range, getPeak returns the maximum
sample value of the range floored at zero: the result bounds every sample
in the range, is non-negative, and is either 0 or attained by some
sample. -/
theorem getPeak_max (buf : AudioBuffer) (c a b : Int)
    (hw : buf.wf = true) (halloc : buf.isAllocd = true)
    (hc0 : 0 ≤ c) (hc : c < buf.m_channels)
    (ha : 0 ≤ a) (hab : a < b) (hb : b ≤ buf.m_size) :
    ∃ p, buf.getPeak c a b = some p ∧ 0 ≤ p ∧
      (∀ i, a ≤ i → i < b → buf.sampleAt i c ≤ p) ∧
      (p = 0 ∨ ∃ i, a ≤ i ∧ i < b ∧ buf.sampleAt i c = p) := by
  have hbne : b ≠ -1 := by omega
  have hassert : getPeakAsserts buf c a b = true := by
    simp [getPeakAsserts, countFrames, hc, ha]
    omega
  obtain ⟨p, hp, hacc, hall, hlast⟩ :=
    peakLoop_spec buf c hw halloc hc0 hc (b - a).toNat a 0 ha (by omega)
  refine ⟨p, ?_, hacc, ?_, ?_⟩
  · simp [getPeak, hassert, countFrames, hbne]
    exact hp
  · intro i h1 h2
    exact hall i h1 (by omega)
  · rcases hlast with h | ⟨j, h1, h2, h3⟩
    · exact Or.inl h
    · exact Or.inr ⟨j, h1, by omega, h3⟩

/-- Witness for C8: the peak of channel 0 over frames [1, 3) of the
ascending buffer 0,1,2,3. -/
theorem getPeak_max_witness :
    ∃ p, (⟨some [0, 1, 2, 3], 4, 1, false⟩ : AudioBuffer).getPeak 0 1 3 = some p ∧
      0 ≤ p ∧
      (∀ i, 1 ≤ i → i < 3 →
        (⟨some [0, 1, 2, 3], 4, 1, false⟩ : AudioBuffer).sampleAt i 0 ≤ p) ∧
      (p = 0 ∨ ∃ i, 1 ≤ i ∧ i < 3 ∧
        (⟨some [0, 1, 2, 3], 4, 1, false⟩ : AudioBuffer).sampleAt i 0 = p) :=
  getPeak_max ⟨some [0, 1, 2, 3], 4, 1, false⟩ 0 1 3 (by decide) (by decide)
    (by decide) (by decide) (by decide) (by decide) (by decide)

/-- Updating one flat sample changes only that sample (for non-negative
flat indices). -/
theorem sampleFlat_set (buf : AudioBuffer) (d : List Rat) (i j : Int) (v : Rat)
    (hd : buf.m_data = some d) (hi0 : 0 ≤ i) (hj0 : 0 ≤ j)
    (hilen : i.toNat < d.length) :
    sampleFlat { buf with m_data := some (d.set i.toNat v) } j =
      if j = i then v else sampleFlat buf j := by
  by_cases hji : j = i
  · rw [hji, if_pos rfl]
    simp [sampleFlat, List.getD_eq_getElem?_getD, List.getElem?_set, hilen]
  · have hne : i.toNat ≠ j.toNat := by omega
    rw [if_neg hji]
    simp [sampleFlat, List.getD_eq_getElem?_getD, List.getElem?_set, hne, hd]

/-- Invariant of applyGain's loop: it scales exactly the flat samples of
the remaining range in place, preserving the dimensions, the viewing flag,
allocation and well-formedness. -/
theorem gainLoop_spec (g : Rat) :
    ∀ (n : Nat) (i : Int) (buf : AudioBuffer), buf.wf = true → buf.isAllocd = true →
      0 ≤ i → i + n ≤ buf.countSamples →
      ∃ buf', gainLoop g n i buf = some buf' ∧
        buf'.m_size = buf.m_size ∧ buf'.m_channels = buf.m_channels ∧
        buf'.m_viewing = buf.m_viewing ∧ buf'.wf = true ∧ buf'.isAllocd = true ∧
        ∀ j : Int, 0 ≤ j →
          buf'.sampleFlat j =
            if i ≤ j ∧ j < i + n then buf.sampleFlat j * g else buf.sampleFlat j := by
  intro n
  induction n with
  | zero =>
    intro i buf hw ha hi0 hin
    refine ⟨buf, rfl, rfl, rfl, rfl, hw, ha, ?_⟩
    intro j hj0
    rw [if_neg]
    omega
  | succ n ih =>
    intro i buf hw ha hi0 hin
    obtain ⟨hs, hc, hlen⟩ := wf_fields buf hw
    obtain ⟨d, hd⟩ := Option.isSome_iff_exists.mp ha
    have hdlen := hlen d hd
    have hics : i < buf.countSamples := by omega
    have hcs0 : 0 ≤ buf.countSamples := by omega
    have hilen : i.toNat < d.length := by
      rw [hdlen]
      exact (Int.toNat_lt_toNat (by omega)).mpr hics
    have hread : buf.readMem i = some (buf.sampleFlat i) := by
      simp [readMem, hd, hi0, sampleFlat, List.getD_eq_getElem?_getD,
        List.getElem?_eq_getElem hilen]
    have hwrite : buf.writeMem i (buf.sampleFlat i * g) =
        some { buf with m_data := some (d.set i.toNat (buf.sampleFlat i * g)) } := by
      simp [writeMem, hd, hi0, hilen]
    have hw1 : ({ buf with m_data := some (d.set i.toNat (buf.sampleFlat i * g)) } :
        AudioBuffer).wf = true := by
      unfold wf at hw ⊢
      rw [hd] at hw
      simpa [List.length_set] using hw
    have ha1 : ({ buf with m_data := some (d.set i.toNat (buf.sampleFlat i * g)) } :
        AudioBuffer).isAllocd = true := rfl
    obtain ⟨buf', hloop, h2, h3, h4, h5, h6, h7⟩ :=
      ih (i + 1) { buf with m_data := some (d.set i.toNat (buf.sampleFlat i * g)) }
        hw1 ha1 (by omega)
        (show i + 1 + (n : Int) ≤ buf.countSamples by omega)
    refine ⟨buf', ?_, h2, h3, h4, h5, h6, ?_⟩
    · simp [gainLoop, hread, hwrite, hloop]
    · intro j hj0
      rw [h7 j hj0,
        sampleFlat_set buf d i j (buf.sampleFlat i * g) hd hi0 hj0 hilen]
      by_cases hji : j = i
      · rw [hji]
        rw [if_neg (by omega), if_pos rfl, if_pos (by omega)]
      · rw [if_neg hji]
        by_cases hrange : i + 1 ≤ j ∧ j < i + 1 + n
        · rw [if_pos hrange, if_pos (by omega)]
        · rw [if_neg hrange, if_neg (by omega)]

/-- C9, counterexample: on a 2-sample buffer, requesting the flat range
[0, 2) with the explicit end 2 == countSamples() fails the assertion
b < countSamples() and aborts, rather than scaling the two samples. -/
theorem applyGain_end_counterexample :
    AudioBuffer.applyGain ⟨some [1, 1], 2, 1, false⟩ 2 0 2 = none ∧
    AudioBuffer.applyGain ⟨some [1, 1], 2, 1, false⟩ 2 0 2 ≠
      some ⟨some [2, 2], 2, 1, false⟩ := by
  decide

/-- C9, amended: for every flat range [a, b) with 0 <= a < b strictly
below countSamples(), applyGain scales exactly the samples of the range by
g in place and leaves every other flat sample, the dimensions and the
viewing flag unchanged (the full range is reachable only through the
sentinel end -1). -/
theorem applyGain_range (buf : AudioBuffer) (g : Rat) (a b : Int)
    (hw : buf.wf = true) (halloc : buf.isAllocd = true)
    (ha : 0 ≤ a) (hab : a < b) (hb : b < buf.countSamples) :
    ∃ buf', buf.applyGain g a b = some buf' ∧
      buf'.countFrames = buf.countFrames ∧
      buf'.countChannels = buf.countChannels ∧
      buf'.m_viewing = buf.m_viewing ∧ buf'.isAllocd = true ∧
      ∀ j : Int, 0 ≤ j →
        buf'.sampleFlat j =
          if a ≤ j ∧ j < b then buf.sampleFlat j * g else buf.sampleFlat j := by
  have hbne : b ≠ -1 := by omega
  obtain ⟨buf', h1, h2, h3, h4, h5, h6, h7⟩ :=
    gainLoop_spec g (b - a).toNat a buf hw halloc ha (by omega)
  refine ⟨buf', ?_, ?_, ?_, h4, h6, ?_⟩
  · simp [applyGain, ha, hbne]
    exact ⟨hb, h1⟩
  · simp [countFrames, h2]
  · simp [countChannels, h3]
  · intro j hj0
    rw [h7 j hj0]
    by_cases hcond : a ≤ j ∧ j < b
    · rw [if_pos (by omega), if_pos hcond]
    · rw [if_neg (by omega), if_neg hcond]

/-- Witness for the amended C9: gain 2 on the flat range [0, 1) of a
2-sample buffer. -/
theorem applyGain_range_witness :
    ∃ buf', AudioBuffer.applyGain ⟨some [1, 1], 2, 1, false⟩ 2 0 1 = some buf' ∧
      buf'.countFrames = (⟨some [1, 1], 2, 1, false⟩ : AudioBuffer).countFrames ∧
      buf'.countChannels = (⟨some [1, 1], 2, 1, false⟩ : AudioBuffer).countChannels ∧
      buf'.m_viewing = (⟨some [1, 1], 2, 1, false⟩ : AudioBuffer).m_viewing ∧
      buf'.isAllocd = true ∧
      ∀ j : Int, 0 ≤ j →
        buf'.sampleFlat j =
          if 0 ≤ j ∧ j < 1 then
            (⟨some [1, 1], 2, 1, false⟩ : AudioBuffer).sampleFlat j * 2
          else (⟨some [1, 1], 2, 1, false⟩ : AudioBuffer).sampleFlat j :=
  applyGain_range ⟨some [1, 1], 2, 1, false⟩ 2 0 1 (by decide) (by decide)
    (by decide) (by decide) (by decide)

/-- C10: passing the actual end countSamples() as the explicit range end
always fails applyGain's assertion (the call aborts, returning none here),
and the sentinel -1 is what selects the full flat sample range, scaling
[a, countSamples()) in place. -/
theorem applyGain_end_assert :
    (∀ (buf : AudioBuffer) (g : Rat) (a : Int),
      buf.applyGain g a buf.countSamples = none) ∧
    ∀ (buf : AudioBuffer) (g : Rat) (a : Int), buf.wf = true →
      buf.isAllocd = true → 0 ≤ a → a < buf.countSamples →
      ∃ buf', buf.applyGain g a (-1) = some buf' ∧
        ∀ j : Int, 0 ≤ j →
          buf'.sampleFlat j =
            if a ≤ j ∧ j < buf.countSamples then buf.sampleFlat j * g
            else buf.sampleFlat j := by
  constructor
  · intro buf g a
    simp [applyGain]
  · intro buf g a hw ha h0 hcs
    obtain ⟨hs, hc, hlen⟩ := wf_fields buf hw
    obtain ⟨buf', h1, h2, h3, h4, h5, h6, h7⟩ :=
      gainLoop_spec g (buf.countSamples - a).toNat a buf hw ha h0 (by omega)
    refine ⟨buf', ?_, ?_⟩
    · have hm1 : (-1 : Int) < buf.countSamples := by
        have : 0 ≤ buf.countSamples := by
          show 0 ≤ buf.m_size * buf.m_channels
          positivity
        omega
      simp [applyGain, h0, hm1, hcs]
      exact h1
    · intro j hj0
      rw [h7 j hj0]
      by_cases hcond : a ≤ j ∧ j < buf.countSamples
      · rw [if_pos (by omega), if_pos hcond]
      · rw [if_neg (by omega), if_neg hcond]

/-- Witness for C10 on a 2-sample buffer: the explicit end 2 is rejected
while the sentinel -1 scales the whole range by 3. -/
theorem applyGain_end_assert_witness :
    AudioBuffer.applyGain ⟨some [1, 2], 2, 1, false⟩ 3
      0 ((⟨some [1, 2], 2, 1, false⟩ : AudioBuffer).countSamples) = none ∧
    ∃ buf', AudioBuffer.applyGain ⟨some [1, 2], 2, 1, false⟩ 3 0 (-1) = some buf' ∧
      ∀ j : Int, 0 ≤ j →
        buf'.sampleFlat j =
          if 0 ≤ j ∧ j < (⟨some [1, 2], 2, 1, false⟩ : AudioBuffer).countSamples then
            (⟨some [1, 2], 2, 1, false⟩ : AudioBuffer).sampleFlat j * 3
          else (⟨some [1, 2], 2, 1, false⟩ : AudioBuffer).sampleFlat j := by
  have h := applyGain_end_assert
  exact ⟨h.1 ⟨some [1, 2], 2, 1, false⟩ 3 0,
    h.2 ⟨some [1, 2], 2, 1, false⟩ 3 0 (by decide) (by decide) (by decide) (by decide)⟩

end mcl
